import Mathlib

/-!
Shallow embedding of the seastore `RandomBlockManager`
(`src/crimson/os/seastore/randomblock_manager.cc`): on-disk superblock and
bitmap-block data model, the free-block scanner, the transaction-scoped
allocation deltas, and the mkfs / open / read / write entry points.  Stateful
device I/O is embedded as explicit event lists (`DevEv`); machine integers are
`Nat` with explicit wrap where the 64-bit arithmetic matters.  Definitions that
embed code living only in the missing header `randomblock_manager.h` carry a
doc comment starting with `Modelled from the spec:`.
-/

set_option autoImplicit false

namespace RandomBlockManager

/-- Error kinds surfaced by the manager (the `crimson::ct_error` variants used in
`randomblock_manager.cc`). -/
inductive Err
  | enoent
  | io
  | erange
  | enospc
  deriving DecidableEq, Repr

/-- Device I/O commands issued by the manager: a read or a write at a byte
address of the underlying nvme device. -/
inductive DevEv
  | devRead (addr : Nat)
  | devWrite (addr : Nat)
  deriving DecidableEq, Repr

/-- Projection keeping only the `devWrite` events of an I/O trace. -/
def writesOf (evs : List DevEv) : List DevEv :=
  evs.filter (fun e => match e with
    | DevEv.devWrite _ => true
    | DevEv.devRead _ => false)

/-- Modelled from the spec: `interval_set<blk_id_t>` (missing header
`include/interval_set.h`): a set of non-overlapping `(start, len)` ranges in
increasing order, merging adjacent ranges on insert. -/
abbrev IntervalSet := List (Nat × Nat)

/-- Total number of block ids contained in an interval set. -/
def countIS : IntervalSet → Nat
  | [] => 0
  | (_, l) :: rest => l + countIS rest

/-- Modelled from the spec: `interval_set::range_end()`, the end (one past the
last id) of the final range; `0` on the empty set (the manager only calls it on
nonempty sets). -/
def rangeEnd : IntervalSet → Nat
  | [] => 0
  | [(a, l)] => a + l
  | _ :: rest => rangeEnd rest

/-- Modelled from the spec: single-id `interval_set::insert`, merging with the
last range when the id is its immediate successor.  The manager only ever
inserts ids at or past `rangeEnd`. -/
def insertIS : IntervalSet → Nat → IntervalSet
  | [], id => [(id, 1)]
  | [(a, l)], id => if a + l = id then [(a, l + 1)] else [(a, l), (id, 1)]
  | p :: q :: rest, id => p :: insertIS (q :: rest) id

/-- Modelled from the spec: `interval_set::intersects(start, len)`: does the set
meet the half-open range `[start, start+len)`. -/
def intersectsIS (s : IntervalSet) (start len : Nat) : Bool :=
  s.any (fun r => start < r.1 + r.2 && r.1 < start + len)

theorem countIS_insertIS (s : IntervalSet) (id : Nat) :
    countIS (insertIS s id) = countIS s + 1 := by
  induction s with
  | nil => rfl
  | cons p tl ih =>
    cases tl with
    | nil =>
      rcases p with ⟨a, l⟩
      by_cases h : a + l = id <;> simp [insertIS, countIS, h]
    | cons q rest =>
      rcases p with ⟨a, l⟩
      simp only [insertIS, countIS, ih]
      omega

/-- On-disk superblock `rbm_metadata_header_t` (fields as printed by the
`operator<<` in `randomblock_manager.cc` and populated by `mkfs`).  All machine
integers are modelled as `Nat`. -/
structure rbm_metadata_header_t where
  uuid : Nat
  magic : Nat
  start : Nat
  «end» : Nat
  block_size : Nat
  size : Nat
  free_block_count : Nat
  alloc_area_size : Nat
  start_alloc_area : Nat
  start_data_area : Nat
  flag : Nat
  feature : Nat
  crc : Nat
  deriving DecidableEq, Repr

/-- Modelled from the spec: `RBM_SUPERBLOCK_SIZE` (missing header), one aligned
device block; the S1 scenario fixes it at 4096 bytes. -/
def RBM_SUPERBLOCK_SIZE : Nat := 4096

/-- Modelled from the spec: the `RBM_BITMAP_BLOCK_CRC` feature bit (missing
header); its concrete value is irrelevant to the claims. -/
def RBM_BITMAP_BLOCK_CRC : Nat := 1

/-- Modelled from the spec: the bitmap-block header (payload size + checksum)
of `rbm_bitmap_block_t` lives in the missing header; it is taken to occupy 8
bytes of each bitmap block. -/
def bitmap_block_header_size : Nat := 8

/-- Modelled from the spec: `max_block_by_bitmap_block()` = number of bits in
the packed bit array of one bitmap block, `(block_size - header_size) * 8`. -/
def max_block_by_bitmap_block (block_size : Nat) : Nat :=
  (block_size - bitmap_block_header_size) * 8

/-- Modelled from the spec: CRC32C seeded with all-ones over the encoding of
the superblock with its `crc` field zeroed.  The `denc` codec and ceph's
`crc32c` live outside `src/`, so a concrete deterministic stand-in hash of the
non-`crc` fields is used; the claims rely only on it being a function of those
fields. -/
def header_crc (h : rbm_metadata_header_t) : Nat :=
  (1 + h.uuid + 3 * h.magic + 5 * h.start + 7 * h.«end» + 11 * h.block_size +
      13 * h.size + 17 * h.free_block_count + 19 * h.alloc_area_size +
      23 * h.start_alloc_area + 29 * h.start_data_area + 31 * h.flag +
      37 * h.feature) % 4294967296

/-- The extent-type tag carried by an allocation delta (only
`RBM_ALLOC_INFO` is used by this manager). -/
inductive extent_types_t
  | RBM_ALLOC_INFO
  deriving DecidableEq, Repr

/-- The direction of an allocation delta (`rbm_alloc_delta_t::op_types_t`). -/
inductive op_types_t
  | SET
  | CLEAR
  deriving DecidableEq, Repr

/-- The two whole-range bitmap operations (`bitmap_op_types_t`). -/
inductive bitmap_op_types_t
  | ALL_SET
  | ALL_CLEAR
  deriving DecidableEq, Repr

/-- Transaction-scoped allocation delta `rbm_alloc_delta_t`. -/
structure rbm_alloc_delta_t where
  alloc_type : extent_types_t
  alloc_blk_ids : IntervalSet
  op : op_types_t
  deriving DecidableEq, Repr

/-- Modelled from the spec: the allocation-related slice of `Transaction`
(missing header): an ordered list of deltas, with
`get_rbm_allocated_blocks` the identity, `add_rbm_allocated_blocks` appending
and `clear_rbm_allocated_blocks` emptying it. -/
abbrev Transaction := List rbm_alloc_delta_t

/-- Accumulator of the free-block scan in `find_free_block`: the `allocated`
counter and the `alloc_extent` interval set of the `do_with` block. -/
structure FindState where
  allocated : Nat
  extent : IntervalSet
  deriving DecidableEq, Repr

/-- Inner loop of `find_free_block` over the bits of one decoded bitmap block
(`for (uint64_t i = 0; i < max && size/block_size > allocated; i++)`).
`isAlloc i` is bit `i` of the decoded block; `base + i` is
`convert_bitmap_block_no_to_block_id(i, addr)` (modelled from the spec as
`bitmap_block_index * M + i`).  The source's scan of the transaction's pending
deltas is kept verbatim as `_pending`: its `continue` exits only that inner
`for`, so it never skips the candidate and has no effect on the state. -/
def scanBits (isAlloc : Nat → Bool) (allocated_blocks : List rbm_alloc_delta_t)
    (base sizeBlocks : Nat) : Nat → Nat → FindState → FindState
  | _, 0, st => st
  | i, rem + 1, st =>
    if sizeBlocks ≤ st.allocated then st
    else
      let block_id := base + i
      let _pending :=
        allocated_blocks.any (fun b => intersectsIS b.alloc_blk_ids block_id 1)
      if isAlloc i then
        scanBits isAlloc allocated_blocks base sizeBlocks (i + 1) rem st
      else if st.allocated ≠ 0 ∧ rangeEnd st.extent ≠ block_id then
        scanBits isAlloc allocated_blocks base sizeBlocks (i + 1) rem ⟨0, []⟩
      else
        scanBits isAlloc allocated_blocks base sizeBlocks (i + 1) rem
          ⟨st.allocated + 1, insertIS st.extent block_id⟩

/-- Outer `crimson::do_until` loop of `find_free_block`: read the bitmap block
at `addr`, scan its bits, advance `addr` by one block; stop successfully when
`size/block_size == allocated`, or with a cleared extent when `addr` reaches
`start_data_area`.  `bm b i` is bit `i` of the on-disk bitmap block of index
`b`; the fuel argument only bounds the (always terminating) iteration. -/
def findLoop (bm : Nat → Nat → Bool) (sup : rbm_metadata_header_t)
    (t : Transaction) (sizeBlocks : Nat) :
    Nat → Nat → FindState → FindState × List DevEv
  | 0, _, st => (st, [])
  | fuel + 1, addr, st =>
    let bbIdx := (addr - sup.start_alloc_area) / sup.block_size
    let st1 := scanBits (bm bbIdx) t
      (bbIdx * max_block_by_bitmap_block sup.block_size) sizeBlocks 0
      (max_block_by_bitmap_block sup.block_size) st
    let addr1 := addr + sup.block_size
    if st1.allocated = sizeBlocks then
      (st1, [DevEv.devRead addr])
    else if sup.start_data_area ≤ addr1 then
      (⟨st1.allocated, []⟩, [DevEv.devRead addr])
    else
      let r := findLoop bm sup t sizeBlocks fuel addr1 st1
      (r.1, DevEv.devRead addr :: r.2)

/-- `RandomBlockManager::find_free_block`: scan the bitmap area starting at
`start_alloc_area` for `size/block_size` contiguous free blocks, clearing the
result when the accumulated blocks do not cover `size` bytes.  Returns the
interval set together with the device I/O issued. -/
def find_free_block (bm : Nat → Nat → Bool) (sup : rbm_metadata_header_t)
    (t : Transaction) (size : Nat) : IntervalSet × List DevEv :=
  let sizeBlocks := size / sup.block_size
  let r := findLoop bm sup t sizeBlocks (sup.start_data_area + 1)
    sup.start_alloc_area ⟨0, []⟩
  if r.1.allocated * sup.block_size < size then ([], r.2) else (r.1.extent, r.2)

/-- `RandomBlockManager::alloc_extent`: call `find_free_block`; on a nonempty
result append a `SET` delta to the transaction, otherwise fail with `enospc`.
The returned trace is exactly the trace of `find_free_block`. -/
def alloc_extent (bm : Nat → Nat → Bool) (sup : rbm_metadata_header_t)
    (t : Transaction) (size : Nat) : Except Err Transaction × List DevEv :=
  let r := find_free_block bm sup t size
  if r.1.isEmpty then (Except.error Err.enospc, r.2)
  else
    (Except.ok (t ++ [⟨extent_types_t.RBM_ALLOC_INFO, r.1, op_types_t.SET⟩]),
      r.2)

/-- `RandomBlockManager::abort_allocation`: clear the transaction's deltas;
no device I/O is issued. -/
def abort_allocation (_t : Transaction) : Transaction × List DevEv :=
  (([] : List rbm_alloc_delta_t), [])

/-- The 64-bit modulus used for the manager's `uint64_t` arithmetic. -/
def UINT64_MOD : Nat := 18446744073709551616

/-- Unsigned 64-bit subtraction `a - b` with wraparound, as computed on
`uint64_t` fields of the superblock. -/
def u64sub (a b : Nat) : Nat :=
  (a + (UINT64_MOD - b % UINT64_MOD)) % UINT64_MOD

/-- Value of a signed quantity folded into a `uint64_t`, reducing the integer
modulo `2^64`. -/
def u64ofInt (z : Int) : Nat :=
  (z % (UINT64_MOD : Int)).toNat

/-- Modelled from the spec: `num_block_between_blk_ids` (missing header), the
number of bitmap blocks spanned by the inclusive block-id range. -/
def num_block_between_blk_ids (M start «end» : Nat) : Nat :=
  «end» / M - start / M + 1

/-- Device I/O trace of `RandomBlockManager::rbm_sync_block_bitmap_by_range`.
The bit manipulation inside the read blocks does not influence which I/O is
issued, so the embedding records the branch structure and the read/write
addresses: the (mis)aligned fast path writes without reading; otherwise the
first bitmap block is read, and unless the range ends inside it
(`num_block == 1`) or ends on a bitmap-block boundary (`(end+1) % max == 0`),
the trailing bitmap block is read as well; each path finishes with a single
contiguous write at the first bitmap block's address. -/
def rbm_sync_block_bitmap_by_range_events (sup : rbm_metadata_header_t)
    (start «end» : Nat) (_op : bitmap_op_types_t) : List DevEv :=
  let max := max_block_by_bitmap_block sup.block_size
  let addr := sup.start_alloc_area + (start / max) * sup.block_size
  if start % max = 0 ∧ «end» % (max - 1) = 0 then
    [DevEv.devWrite addr]
  else
    let num_block := num_block_between_blk_ids max start «end»
    if num_block = 1 then
      [DevEv.devRead addr, DevEv.devWrite addr]
    else if («end» + 1) % max = 0 then
      [DevEv.devRead addr, DevEv.devWrite addr]
    else
      let next_addr := sup.start_alloc_area + («end» / max) * sup.block_size
      [DevEv.devRead addr, DevEv.devRead next_addr, DevEv.devWrite addr]

/-- The `start % M == 0 ∧ (end + 1) % M == 0` alignment predicate of the
claim (spec §4.3 case 1, fully aligned range), stated in the spec's words for
comparison with the guard actually tested by the source. -/
def spec_fully_aligned (M start «end» : Nat) : Bool :=
  start % M == 0 && («end» + 1) % M == 0

/-- The signed net block count of `complete_allocation`
(`int alloc_block_count`): `+len` for each `SET` range, `-len` for each
`CLEAR` range, in delta and range order. -/
def alloc_block_count (alloc_blocks : List rbm_alloc_delta_t) : Int :=
  alloc_blocks.foldl (fun acc b =>
    b.alloc_blk_ids.foldl (fun a r =>
      if b.op = op_types_t.SET then a + (r.2 : Int) else a - (r.2 : Int)) acc) 0

/-- `RandomBlockManager::complete_allocation`: on an empty delta list return
immediately; otherwise issue `rbm_sync_block_bitmap_by_range(first,
first+len-1, op)` for every range of every delta in order (recorded here as the
list of calls), then fold the net count into `super.free_block_count` with the
source's `if (alloc_block_count > 0) -= else +=` update on `uint64_t`.
Returns the new `free_block_count` and the issued range-sync calls. -/
def complete_allocation (free_block_count : Nat) (t : Transaction) :
    Nat × List (Nat × Nat × bitmap_op_types_t) :=
  if t.isEmpty then (free_block_count, [])
  else
    let calls := (t.map (fun alloc =>
      alloc.alloc_blk_ids.map (fun range =>
        (range.1, range.1 + range.2 - 1,
          if alloc.op = op_types_t.SET then bitmap_op_types_t.ALL_SET
          else bitmap_op_types_t.ALL_CLEAR)))).flatten
    let c := alloc_block_count t
    let free1 :=
      if 0 < c then u64ofInt ((free_block_count : Int) - c)
      else u64ofInt ((free_block_count : Int) + c)
    (free1, calls)

/-- Superblock slot of the device: either undecodable bytes (fresh or
corrupt device, `decode` throws) or an encoded `rbm_metadata_header_t`. -/
inductive SbSlot
  | garbage
  | record (h : rbm_metadata_header_t)
  deriving DecidableEq, Repr

/-- `RandomBlockManager::read_rbm_header`: read and decode the superblock;
a decode failure is `enoent`, a CRC mismatch (recomputed over the record with
its `crc` field zeroed) is an input/output error. -/
def read_rbm_header (slot : SbSlot) : Except Err rbm_metadata_header_t :=
  match slot with
  | SbSlot.garbage => Except.error Err.enoent
  | SbSlot.record h =>
    if header_crc h ≠ h.crc then Except.error Err.io else Except.ok h

/-- `RandomBlockManager::open`: read the superblock; propagate read errors,
fail with `enoent` when the magic is not `0xFF`, and otherwise install the
decoded header as the in-memory `super` (returned here). -/
def «open» (slot : SbSlot) : Except Err rbm_metadata_header_t :=
  match read_rbm_header slot with
  | Except.error e => Except.error e
  | Except.ok s =>
    if s.magic ≠ 0xFF then Except.error Err.enoent else Except.ok s

/-- Modelled from the spec: `get_alloc_area_size()` (missing header), the
smallest whole number of bitmap blocks covering every device block, in
bytes. -/
def get_alloc_area_size (total_size block_size : Nat) : Nat :=
  ((total_size / block_size + max_block_by_bitmap_block block_size - 1) /
      max_block_by_bitmap_block block_size) * block_size

/-- `ceph::round_up_to` from `include/intarith.h`: round `n` up to the
nearest multiple of `d`. -/
def round_up_to (n d : Nat) : Nat := ((n + d - 1) / d) * d

/-- Modelled from the spec: `convert_block_no_to_bitmap_block` (missing
header), the index of the bitmap block holding a block id's bit. -/
def convert_block_no_to_bitmap_block (sup : rbm_metadata_header_t)
    (block_no : Nat) : Nat :=
  block_no / max_block_by_bitmap_block sup.block_size

/-- Device I/O trace of `RandomBlockManager::rbm_sync_block_bitmap`: one
aligned write of the encoded bitmap block at
`start_alloc_area + convert_block_no_to_bitmap_block(block_no) * block_size`. -/
def rbm_sync_block_bitmap_events (sup : rbm_metadata_header_t)
    (block_no : Nat) : List DevEv :=
  [DevEv.devWrite (sup.start_alloc_area +
    convert_block_no_to_bitmap_block sup block_no * sup.block_size)]

/-- Device I/O trace of `RandomBlockManager::initialize_blk_alloc_area`:
write the first bitmap block (superblock + bitmap area marked allocated),
clear the bitmap blocks covering the device via
`rbm_sync_block_bitmap_by_range`, and, when the device block count is not a
multiple of `M`, write the final bitmap block with its tail slack set. -/
def initialize_blk_alloc_area_events (sup : rbm_metadata_header_t) :
    List DevEv :=
  let start := sup.start_data_area / sup.block_size
  let max := max_block_by_bitmap_block sup.block_size
  let max_block := sup.size / sup.block_size
  let endId := round_up_to max_block max - 1
  rbm_sync_block_bitmap_events sup (sup.start_alloc_area / sup.block_size) ++
    rbm_sync_block_bitmap_by_range_events sup start endId
      bitmap_op_types_t.ALL_CLEAR ++
    (if max_block % max ≠ 0 then rbm_sync_block_bitmap_events sup max_block
     else [])

/-- The fresh superblock populated by `mkfs` on the `enoent` path, with the
`crc` filled in by `write_rbm_header` (computed over the record with `crc`
still zero). -/
structure mkfs_config_t where
  start : Nat
  «end» : Nat
  block_size : Nat
  total_size : Nat
  deriving DecidableEq, Repr

/-- The superblock written by `RandomBlockManager::mkfs` for a given config
(lines 128-139 of `randomblock_manager.cc`, plus the `crc` computed by
`write_rbm_header`). -/
def mkfs_fresh_super (config : mkfs_config_t) : rbm_metadata_header_t :=
  let base : rbm_metadata_header_t :=
    { uuid := 0
      magic := 0xFF
      start := config.start
      «end» := config.«end»
      block_size := config.block_size
      size := config.total_size
      free_block_count := config.total_size / config.block_size - 2
      alloc_area_size := get_alloc_area_size config.total_size config.block_size
      start_alloc_area := RBM_SUPERBLOCK_SIZE
      start_data_area := RBM_SUPERBLOCK_SIZE +
        get_alloc_area_size config.total_size config.block_size
      flag := 0
      feature := RBM_BITMAP_BLOCK_CRC
      crc := 0 }
  { base with crc := header_crc base }

/-- `RandomBlockManager::mkfs`: open the device, try to read an existing
superblock at `config.start`; when that succeeds, do nothing further; when it
fails with `enoent`, write a fresh superblock (`write_rbm_header`) and
initialize the bitmap area; any other read error passes further.  Returns the
resulting superblock slot (or error) together with the device I/O issued. -/
def mkfs (config : mkfs_config_t) (slot : SbSlot) :
    Except Err SbSlot × List DevEv :=
  match read_rbm_header slot with
  | Except.ok _ => (Except.ok slot, [DevEv.devRead config.start])
  | Except.error Err.enoent =>
    let fresh := mkfs_fresh_super config
    (Except.ok (SbSlot.record fresh),
      DevEv.devRead config.start :: DevEv.devWrite config.start ::
        initialize_blk_alloc_area_events fresh)
  | Except.error e => (Except.error e, [DevEv.devRead config.start])

/-- `RandomBlockManager::write` (the `bufferptr` interface): fail with
`erange` before any device I/O when `addr > super.end - super.start`
(`uint64_t` arithmetic), otherwise forward the write to the device. -/
def write (sup : rbm_metadata_header_t) (addr : Nat) (_bptr_len : Nat) :
    Except Err Unit × List DevEv :=
  if u64sub sup.«end» sup.start < addr then (Except.error Err.erange, [])
  else (Except.ok (), [DevEv.devWrite addr])

/-- `RandomBlockManager::read`: fail with `erange` before any device I/O when
`addr > super.end - super.start` or `buffer.length() > super.end -
super.start`, otherwise forward the read to the device. -/
def read (sup : rbm_metadata_header_t) (addr : Nat) (buffer_len : Nat) :
    Except Err Unit × List DevEv :=
  if u64sub sup.«end» sup.start < addr ∨
      u64sub sup.«end» sup.start < buffer_len then
    (Except.error Err.erange, [])
  else (Except.ok (), [DevEv.devRead addr])

theorem writesOf_nil : writesOf [] = [] := rfl

theorem writesOf_read (a : Nat) (l : List DevEv) :
    writesOf (DevEv.devRead a :: l) = writesOf l := rfl

/-- The bit scan preserves the invariant that the accumulated interval set
contains exactly `allocated` block ids. -/
theorem scanBits_count (isAlloc : Nat → Bool) (ab : List rbm_alloc_delta_t)
    (base sizeBlocks : Nat) :
    ∀ rem i st, countIS st.extent = st.allocated →
      countIS (scanBits isAlloc ab base sizeBlocks i rem st).extent =
        (scanBits isAlloc ab base sizeBlocks i rem st).allocated := by
  intro rem
  induction rem with
  | zero =>
    intro i st h
    simpa [scanBits] using h
  | succ n ih =>
    intro i st h
    rw [scanBits]
    dsimp only
    split
    · exact h
    · split
      · exact ih (i + 1) st h
      · split
        · exact ih (i + 1) ⟨0, []⟩ rfl
        · exact ih (i + 1) _ (by simp [countIS_insertIS, h])

/-- The scan loop never writes to the device. -/
theorem findLoop_writes (bm : Nat → Nat → Bool) (sup : rbm_metadata_header_t)
    (t : Transaction) (sizeBlocks : Nat) :
    ∀ fuel addr st,
      writesOf (findLoop bm sup t sizeBlocks fuel addr st).2 = [] := by
  intro fuel
  induction fuel with
  | zero => intro addr st; rfl
  | succ n ih =>
    intro addr st
    rw [findLoop]
    dsimp only
    split
    · rfl
    · split
      · rfl
      · simpa [writesOf_read] using ih _ _

/-- The scan loop, run with enough fuel to reach `start_data_area`, returns
either a cleared extent or an extent of exactly `sizeBlocks` block ids. -/
theorem findLoop_spec (bm : Nat → Nat → Bool) (sup : rbm_metadata_header_t)
    (t : Transaction) (sizeBlocks : Nat) :
    ∀ fuel addr st, 1 ≤ fuel →
      sup.start_data_area ≤ addr + fuel * sup.block_size →
      countIS st.extent = st.allocated →
      (findLoop bm sup t sizeBlocks fuel addr st).1.extent = [] ∨
        ((findLoop bm sup t sizeBlocks fuel addr st).1.allocated = sizeBlocks ∧
          countIS (findLoop bm sup t sizeBlocks fuel addr st).1.extent =
            sizeBlocks) := by
  intro fuel
  induction fuel with
  | zero =>
    intro addr st h1 _ _
    exact absurd h1 (by omega)
  | succ n ih =>
    intro addr st _ hb hinv
    rw [findLoop]
    dsimp only
    have hc := scanBits_count
      (bm ((addr - sup.start_alloc_area) / sup.block_size)) t
      (((addr - sup.start_alloc_area) / sup.block_size) *
        max_block_by_bitmap_block sup.block_size) sizeBlocks
      (max_block_by_bitmap_block sup.block_size) 0 st hinv
    split
    · next heq => exact Or.inr ⟨heq, hc.trans heq⟩
    · split
      · exact Or.inl rfl
      · next hlt =>
        have hsplit : addr + (n + 1) * sup.block_size =
            (addr + sup.block_size) + n * sup.block_size := by ring
        have hn : n ≠ 0 := by
          intro h0
          subst h0
          rw [hsplit] at hb
          simp at hb
          exact hlt hb
        have hb2 : sup.start_data_area ≤
            (addr + sup.block_size) + n * sup.block_size := hsplit ▸ hb
        simpa using ih (addr + sup.block_size) _ (by omega) hb2 hc

/-- `find_free_block` never writes to the device. -/
theorem find_free_block_no_writes (bm : Nat → Nat → Bool)
    (sup : rbm_metadata_header_t) (t : Transaction) (size : Nat) :
    writesOf (find_free_block bm sup t size).2 = [] := by
  unfold find_free_block
  dsimp only
  split <;> exact findLoop_writes bm sup t _ _ _ _

/-- `alloc_extent` never writes to the device. -/
theorem alloc_extent_no_writes (bm : Nat → Nat → Bool)
    (sup : rbm_metadata_header_t) (t : Transaction) (size : Nat) :
    writesOf (alloc_extent bm sup t size).2 = [] := by
  unfold alloc_extent
  dsimp only
  split <;> exact find_free_block_no_writes bm sup t size

/-- The extent returned by `find_free_block` is empty or holds exactly
`size / block_size` blocks whose byte total covers `size`. -/
theorem find_free_block_spec (bm : Nat → Nat → Bool)
    (sup : rbm_metadata_header_t) (t : Transaction) (size : Nat)
    (h : 0 < sup.block_size) :
    (find_free_block bm sup t size).1 = [] ∨
      (countIS (find_free_block bm sup t size).1 = size / sup.block_size ∧
        size ≤ size / sup.block_size * sup.block_size) := by
  have hbound : sup.start_data_area ≤ sup.start_alloc_area +
      (sup.start_data_area + 1) * sup.block_size := by
    have h2 : sup.start_data_area + 1 ≤
        (sup.start_data_area + 1) * sup.block_size :=
      Nat.le_mul_of_pos_right _ h
    linarith
  have hfl := findLoop_spec bm sup t (size / sup.block_size)
    (sup.start_data_area + 1) sup.start_alloc_area ⟨0, []⟩ (by omega) hbound rfl
  unfold find_free_block
  dsimp only
  split
  · exact Or.inl rfl
  · next hge =>
    rcases hfl with hempty | ⟨ha, hcnt⟩
    · exact Or.inl hempty
    · refine Or.inr ⟨hcnt, ?_⟩
      rw [ha] at hge
      exact Nat.not_lt.mp hge

/-- Concrete geometry for evaluating the scanner: 16-byte blocks (so `M` =
`max_block_by_bitmap_block 16` = 64 bits per bitmap block), a single bitmap
block at byte 16 and the data area starting at byte 32. -/
def sup0 : rbm_metadata_header_t :=
  { uuid := 0, magic := 0xFF, start := 0, «end» := 512, block_size := 16,
    size := 512, free_block_count := 30, alloc_area_size := 16,
    start_alloc_area := 16, start_data_area := 32, flag := 0, feature := 1,
    crc := 0 }

/-- A completely free on-disk bitmap: every bit of every bitmap block clear. -/
def bm0 : Nat → Nat → Bool := fun _ _ => false

/-- A transaction already carrying a pending `SET` delta over block ids
`[0, 2)`, as produced by a first `alloc_extent` of two blocks. -/
def txn1 : Transaction :=
  [⟨extent_types_t.RBM_ALLOC_INFO, [(0, 2)], op_types_t.SET⟩]

/-- C1: evaluation of the code at the failing input.  On an all-free bitmap a
first `alloc_extent` of two blocks records the pending `SET` delta `[0, 2)`;
a second `alloc_extent` on the same transaction returns the very same interval
`[0, 2)` (which intersects the pending delta), because the `continue` in the
scan over `t.get_rbm_allocated_blocks()` exits only the inner loop and never
skips the candidate — so back-to-back `alloc_extent` calls are not disjoint. -/
theorem C1_pending_set_delta_not_skipped :
    (alloc_extent bm0 sup0 ([] : Transaction) 32).1 = Except.ok txn1 ∧
    (alloc_extent bm0 sup0 txn1 32).1 = Except.ok (txn1 ++
      [⟨extent_types_t.RBM_ALLOC_INFO, [(0, 2)], op_types_t.SET⟩]) ∧
    intersectsIS [(0, 2)] 0 1 = true := by
  refine ⟨rfl, rfl, rfl⟩

/-- A transaction holding a single `CLEAR` delta of two blocks (the S4
free-after-alloc scenario of the spec, with `free_block_count = 252`). -/
def c2_txn : Transaction :=
  [⟨extent_types_t.RBM_ALLOC_INFO, [(10, 2)], op_types_t.CLEAR⟩]

/-- C2: evaluation of the code at the failing input.  With prior
`free_block_count = 252` and one `CLEAR` delta of 2 blocks (`nS = 0`,
`nC = 2`), `complete_allocation` leaves `free_block_count = 250`: the source's
`else` branch executes `free_block_count += alloc_block_count` with the
negative net count, so a free decreases the counter instead of restoring it to
`252 - 0 + 2 = 254`. -/
theorem C2_clear_delta_decreases_free_count :
    complete_allocation 252 c2_txn =
      (250, [(10, 11, bitmap_op_types_t.ALL_CLEAR)]) ∧
    (250 : Nat) ≠ 252 - 0 + 2 := by
  refine ⟨rfl, by decide⟩

/-- Ceiling division, the block count the claim attributes to
`find_free_block` (`ceil(size / block_size)`). -/
def ceil_div (a b : Nat) : Nat := (a + b - 1) / b

/-- Does the on-disk bitmap contain a contiguous run of `n` free blocks
starting at some id at most `total`?  (`M` bits per bitmap block.) -/
def free_run_exists (bm : Nat → Nat → Bool) (M total n : Nat) : Bool :=
  (List.range (total + 1)).any (fun b =>
    (List.range n).all (fun j => !(bm ((b + j) / M) ((b + j) % M))))

/-- C3 counterexample: on an all-free device, `alloc_extent` with the byte
size 1 fails with `enospc` even though `ceil(1 / block_size) = 1` and a free
run of one block exists — the scanner counts in `size / block_size` (floor)
units and then discards any run whose byte total is below `size`, so the claim
(exactly `ceil(size/block_size)` blocks, `enospc` only when no suitable run
exists) is false at this input. -/
theorem C3_counterexample_unaligned_size :
    (alloc_extent bm0 sup0 ([] : Transaction) 1).1 = Except.error Err.enospc ∧
    ceil_div 1 sup0.block_size = 1 ∧
    free_run_exists bm0 64 32 1 = true := by
  refine ⟨rfl, rfl, rfl⟩

/-- C3 (amended): for every bitmap, transaction and size (with a positive
block size), `alloc_extent` never writes to the device, and either fails with
`enospc`, or appends to the transaction a single `SET` delta holding exactly
`size / block_size` (floor) blocks whose byte total covers `size` (hence
nonempty success is only possible when `size` is a multiple of the block
size). -/
theorem C3_alloc_extent_floor_or_enospc (bm : Nat → Nat → Bool)
    (sup : rbm_metadata_header_t) (t : Transaction) (size : Nat)
    (h : 0 < sup.block_size) :
    writesOf (alloc_extent bm sup t size).2 = [] ∧
      ((alloc_extent bm sup t size).1 = Except.error Err.enospc ∨
        ∃ d : rbm_alloc_delta_t,
          (alloc_extent bm sup t size).1 = Except.ok (t ++ [d]) ∧
          d.op = op_types_t.SET ∧
          countIS d.alloc_blk_ids = size / sup.block_size ∧
          size ≤ size / sup.block_size * sup.block_size) := by
  refine ⟨alloc_extent_no_writes bm sup t size, ?_⟩
  by_cases he : (find_free_block bm sup t size).1 = []
  · left
    unfold alloc_extent
    dsimp only
    rw [he]
    rfl
  · rcases find_free_block_spec bm sup t size h with hempty | ⟨hc, hs⟩
    · exact absurd hempty he
    · right
      refine ⟨⟨extent_types_t.RBM_ALLOC_INFO, (find_free_block bm sup t size).1,
        op_types_t.SET⟩, ?_, rfl, hc, hs⟩
      have hne : (find_free_block bm sup t size).1.isEmpty = false := by
        cases hfe : (find_free_block bm sup t size).1 with
        | nil => exact absurd hfe he
        | cons a l => rfl
      unfold alloc_extent
      dsimp only
      rw [hne]
      rfl

/-- C3 witness: the amended theorem applied at a concrete input (an all-free
device, the empty transaction and a two-block request). -/
theorem C3_alloc_extent_witness :
    0 < sup0.block_size ∧
      (writesOf (alloc_extent bm0 sup0 ([] : Transaction) 32).2 = [] ∧
        ((alloc_extent bm0 sup0 ([] : Transaction) 32).1 =
            Except.error Err.enospc ∨
          ∃ d : rbm_alloc_delta_t,
            (alloc_extent bm0 sup0 ([] : Transaction) 32).1 =
              Except.ok (([] : Transaction) ++ [d]) ∧
            d.op = op_types_t.SET ∧
            countIS d.alloc_blk_ids = 32 / sup0.block_size ∧
            32 ≤ 32 / sup0.block_size * sup0.block_size)) :=
  ⟨by decide, C3_alloc_extent_floor_or_enospc bm0 sup0 [] 32 (by decide)⟩

/-- C4: evaluation of the code at the failing input.  The range `[0, 127]`
with `M = max_block_by_bitmap_block 16 = 64` is fully aligned in the claim's
sense (`0 % M = 0`, `128 % M = 0`, two whole bitmap blocks), yet the source's
guard `start % max == 0 && end % (max - 1) == 0` is false (`127 % 63 = 1`),
so `rbm_sync_block_bitmap_by_range` takes the read-modify-write path and
issues a device read — contradicting the claimed no-read synthesized write. -/
theorem C4_fully_aligned_range_still_reads :
    spec_fully_aligned (max_block_by_bitmap_block sup0.block_size) 0 127 =
      true ∧
    rbm_sync_block_bitmap_by_range_events sup0 0 127
        bitmap_op_types_t.ALL_SET =
      [DevEv.devRead 16, DevEv.devWrite 16] := by
  refine ⟨rfl, rfl⟩

/-- The S1 format configuration of the spec: `block_size = 4096`,
`total_size = 1 MiB`, superblock at byte 0. -/
def cfg0 : mkfs_config_t :=
  { start := 0, «end» := 1048576, block_size := 4096, total_size := 1048576 }

/-- A superblock whose magic is not `0xFF` (otherwise the S1 geometry). -/
def c5_base : rbm_metadata_header_t :=
  { mkfs_fresh_super cfg0 with magic := 0, crc := 0 }

/-- The on-disk slot storing `c5_base` with a correct CRC. -/
def c5_slot : SbSlot := SbSlot.record { c5_base with crc := header_crc c5_base }

/-- C5 counterexample: a stored record whose CRC verifies but whose magic is
not `0xFF`.  `mkfs` performs no device writes on it (it returns success after
the read), yet the superblock is not valid in the claim's sense (magic
differs), so "no writes iff a superblock with valid magic and valid CRC
exists" is false at this input: `read_rbm_header`, and hence `mkfs`'s
idempotency test, never examines the magic. -/
theorem C5_counterexample_magic_not_checked :
    writesOf (mkfs cfg0 c5_slot).2 = [] ∧
    (mkfs cfg0 c5_slot).1 = Except.ok c5_slot ∧
    c5_base.magic ≠ 0xFF := by
  refine ⟨rfl, rfl, by decide⟩

/-- C5 (amended): `mkfs` performs no device writes iff reading the superblock
does not fail with `enoent` — i.e. iff the stored record decodes, regardless
of its magic; when the record decodes but its CRC does not verify, `mkfs`
fails with the propagated `io` error (still without writing); only on
`enoent` does it write the fresh superblock and initialize the bitmap area. -/
theorem C5_mkfs_writes_iff_enoent (config : mkfs_config_t) (slot : SbSlot) :
    (writesOf (mkfs config slot).2 = [] ↔
      read_rbm_header slot ≠ Except.error Err.enoent) ∧
    ((mkfs config slot).1 = Except.error Err.io ↔
      read_rbm_header slot = Except.error Err.io) ∧
    (read_rbm_header slot = Except.error Err.enoent →
      (mkfs config slot).1 =
        Except.ok (SbSlot.record (mkfs_fresh_super config)) ∧
      DevEv.devWrite config.start ∈ (mkfs config slot).2) := by
  cases slot with
  | garbage =>
    refine ⟨?_, ?_, ?_⟩
    · simp [mkfs, read_rbm_header, writesOf]
    · simp [mkfs, read_rbm_header]
    · intro _
      exact ⟨rfl, by simp [mkfs, read_rbm_header]⟩
  | record h =>
    by_cases hcrc : header_crc h = h.crc
    · refine ⟨?_, ?_, ?_⟩
      · simp [mkfs, read_rbm_header, hcrc, writesOf]
      · simp [mkfs, read_rbm_header, hcrc]
      · intro habs
        rw [read_rbm_header] at habs
        simp [hcrc] at habs
    · refine ⟨?_, ?_, ?_⟩
      · simp [mkfs, read_rbm_header, hcrc, writesOf]
      · simp [mkfs, read_rbm_header, hcrc]
      · intro habs
        rw [read_rbm_header] at habs
        simp [hcrc] at habs

/-- C5 witness: the amended theorem applied to a fresh (undecodable) device,
with the `enoent` hypothesis of the write-path conjunct discharged. -/
theorem C5_mkfs_writes_witness :
    (writesOf (mkfs cfg0 SbSlot.garbage).2 = [] ↔
      read_rbm_header SbSlot.garbage ≠ Except.error Err.enoent) ∧
    ((mkfs cfg0 SbSlot.garbage).1 = Except.error Err.io ↔
      read_rbm_header SbSlot.garbage = Except.error Err.io) ∧
    ((mkfs cfg0 SbSlot.garbage).1 =
        Except.ok (SbSlot.record (mkfs_fresh_super cfg0)) ∧
      DevEv.devWrite cfg0.start ∈ (mkfs cfg0 SbSlot.garbage).2) :=
  ⟨(C5_mkfs_writes_iff_enoent cfg0 SbSlot.garbage).1,
    (C5_mkfs_writes_iff_enoent cfg0 SbSlot.garbage).2.1,
    (C5_mkfs_writes_iff_enoent cfg0 SbSlot.garbage).2.2 rfl⟩

/-- C6: `mkfs` on a fresh device followed by `open` succeeds and returns
exactly the superblock `mkfs` wrote (its CRC verifies and its magic is
`0xFF`); in particular, for the S1 configuration the reopened superblock has
`size = 1048576`, `block_size = 4096`, `free_block_count = 254` and
`start_alloc_area = 4096`. -/
theorem C6_mkfs_open_roundtrip (config : mkfs_config_t)
    (_hv : 0 < config.block_size ∧ 2 * config.block_size ≤ config.total_size) :
    (mkfs config SbSlot.garbage).1 =
      Except.ok (SbSlot.record (mkfs_fresh_super config)) ∧
    «open» (SbSlot.record (mkfs_fresh_super config)) =
      Except.ok (mkfs_fresh_super config) ∧
    (mkfs_fresh_super cfg0).size = 1048576 ∧
    (mkfs_fresh_super cfg0).block_size = 4096 ∧
    (mkfs_fresh_super cfg0).free_block_count = 254 ∧
    (mkfs_fresh_super cfg0).start_alloc_area = 4096 := by
  have hcrc : header_crc (mkfs_fresh_super config) =
      (mkfs_fresh_super config).crc := rfl
  have hmagic : (mkfs_fresh_super config).magic = 0xFF := rfl
  refine ⟨rfl, ?_, rfl, rfl, rfl, rfl⟩
  simp [«open», read_rbm_header, hcrc, hmagic]

/-- C6 witness: the round trip at the S1 configuration. -/
theorem C6_mkfs_open_witness :
    (0 < cfg0.block_size ∧ 2 * cfg0.block_size ≤ cfg0.total_size) ∧
      ((mkfs cfg0 SbSlot.garbage).1 =
        Except.ok (SbSlot.record (mkfs_fresh_super cfg0)) ∧
      «open» (SbSlot.record (mkfs_fresh_super cfg0)) =
        Except.ok (mkfs_fresh_super cfg0) ∧
      (mkfs_fresh_super cfg0).size = 1048576 ∧
      (mkfs_fresh_super cfg0).block_size = 4096 ∧
      (mkfs_fresh_super cfg0).free_block_count = 254 ∧
      (mkfs_fresh_super cfg0).start_alloc_area = 4096) :=
  ⟨by decide, C6_mkfs_open_roundtrip cfg0 (by decide)⟩

/-- C7: for every stored (decodable) superblock, `open` fails with an `io`
error when the recomputed CRC differs from the stored one, fails with
`enoent` when the CRC verifies but the magic is not `0xFF`, and installs the
decoded superblock exactly when both checks pass. -/
theorem C7_open_checks (h : rbm_metadata_header_t) :
    «open» (SbSlot.record h) =
      (if header_crc h ≠ h.crc then Except.error Err.io
       else if h.magic ≠ 0xFF then Except.error Err.enoent
       else Except.ok h) := by
  by_cases hcrc : header_crc h = h.crc <;>
    simp [«open», read_rbm_header, hcrc]

/-- C8: `write` and `read` both fail with `erange` and issue no device I/O
when `addr > end - start` (on `uint64_t`), and `read` additionally fails with
`erange` (again with no device I/O) when the buffer length exceeds
`end - start`. -/
theorem C8_read_write_range_bounds (sup : rbm_metadata_header_t)
    (addr l1 l2 : Nat) :
    (u64sub sup.«end» sup.start < addr →
      write sup addr l1 = (Except.error Err.erange, []) ∧
      read sup addr l2 = (Except.error Err.erange, [])) ∧
    (u64sub sup.«end» sup.start < l2 →
      read sup addr l2 = (Except.error Err.erange, [])) := by
  refine ⟨fun h => ⟨?_, ?_⟩, fun h => ?_⟩
  · simp [write, h]
  · simp [read, h]
  · simp [read, h]

/-- C8 witness: both range checks fire on the concrete geometry `sup0`
(`end - start = 512`) at address and buffer length 1000. -/
theorem C8_range_bounds_witness :
    u64sub sup0.«end» sup0.start < 1000 ∧
      (write sup0 1000 16 = (Except.error Err.erange, []) ∧
        read sup0 1000 1000 = (Except.error Err.erange, [])) ∧
      read sup0 0 1000 = (Except.error Err.erange, []) :=
  ⟨by decide, (C8_read_write_range_bounds sup0 1000 16 1000).1 (by decide),
    (C8_read_write_range_bounds sup0 0 16 1000).2 (by decide)⟩

/-- C9: `abort_allocation` always returns the transaction with all deltas
cleared and issues no device I/O, and `alloc_extent` writes nothing to the
device; hence an `alloc_extent` followed by `abort_allocation` leaves the
on-disk state byte-identical to the state before the `alloc_extent` call. -/
theorem C9_abort_is_pure (bm : Nat → Nat → Bool)
    (sup : rbm_metadata_header_t) (t : Transaction) (size : Nat) :
    writesOf (alloc_extent bm sup t size).2 = [] ∧
    ∀ u : Transaction, abort_allocation u = (([] : Transaction), []) := by
  exact ⟨alloc_extent_no_writes bm sup t size, fun u => rfl⟩

/-- C10: on a transaction with an empty delta list, `complete_allocation`
returns immediately: no bitmap-range sync (hence no device read or write) is
issued and `free_block_count` is unchanged. -/
theorem C10_complete_allocation_empty (free_block_count : Nat) :
    complete_allocation free_block_count ([] : Transaction) =
      (free_block_count, []) := rfl

end RandomBlockManager
